import Mathlib

/-!
# Verification of the LuLeMe battle-room subsystem

Shallow embedding of the in-memory battle-room code of `app.py`
(`BATTLE_ROOMS`, `_gen_code`, `_room_state`, `_cleanup_rooms`, and the
`battle_*` request handlers).  Time is modelled as whole seconds (`Nat`);
each request handler takes the current time `now` explicitly, mirroring
the `_now()` calls of the source.  Python dictionaries (the room registry
and each room's `players` mapping) are modelled as insertion-ordered
association lists; updating an existing key keeps its position, inserting
a new key appends, exactly as CPython dicts behave.  Mutation of a room
via aliasing (in particular the lazy-expiry write performed inside
`_room_state`) is made explicit: every handler returns the updated
registry next to its response.
-/

set_option autoImplicit false

namespace LuLeMe

/-- A player entry, as built by `battle_create` / `battle_join` /
`battle_tap` (`{"user_id": ..., "username": ..., "count": 0, "ready": False}`). -/
structure Player where
  user_id : Nat
  username : String
  count : Nat
  ready : Bool
deriving DecidableEq, Repr

/-- A battle room, as stored in `BATTLE_ROOMS`.  The `surrendered`,
`surrender_result` and `winner_id` keys are absent until first written in
the source; their `room.get(..., default)` reads make that identical to
starting from `[]` / `None`, which is how the defaults here are chosen. -/
structure Room where
  code : String
  creator_id : Nat
  creator_name : String
  players : List (Nat × Player)
  created_at : Nat
  started_at : Option Nat
  finished_at : Option Nat
  surrendered : List Nat := []
  surrender_result : Option String := none
  winner_id : Option Nat := none
deriving DecidableEq, Repr

/-- The dictionary returned by `_room_state`. -/
structure Snap where
  code : String
  creator_id : Nat
  creator_name : String
  players : List Player
  started : Bool
  remaining : Nat
  finished : Bool
  surrendered : List Nat
  surrender_result : Option String
  winner_id : Option Nat
deriving DecidableEq, Repr

/-- The error responses produced by the battle handlers, one constructor per
distinct `error(...)` site (message, HTTP status):
`notFound` = "房间不存在或已过期" 404; `forbidden` = "只有房主能开始" 403;
`roomFinished` = "房间已结束" 400; `alreadyStarted` = "对战已开始" 400;
`notStarted` = "对战未开始" 400; `alreadyOver` = "已结束"/"对战已结束" 400;
`tooFewPlayers` = "至少 2 人才能开始" 400; `notInRoom` = "你不在该房间中"/"你不在房间中" 400. -/
inductive BErr where
  | notFound
  | forbidden
  | roomFinished
  | alreadyStarted
  | notStarted
  | alreadyOver
  | tooFewPlayers
  | notInRoom
deriving DecidableEq, Repr

/-- In the spec's error taxonomy (§7), `Conflict` covers the state-guard
failures; `notFound` is NotFound, `forbidden` is Forbidden, and
`notInRoom` is BadRequest("not a participant"). -/
def BErr.isConflict : BErr → Bool
  | .roomFinished => true
  | .alreadyStarted => true
  | .notStarted => true
  | .alreadyOver => true
  | .tooFewPlayers => true
  | _ => false

/-- Result of `battle_leave`: an error, a plain departure returning the
snapshot, a departure with host transfer (`"new_creator": True`), or
room deletion (`"room_deleted": True`, no snapshot). -/
inductive LeaveRes where
  | err (e : BErr)
  | left (s : Snap)
  | leftNewCreator (s : Snap)
  | deleted
deriving DecidableEq, Repr

/-! ## Insertion-ordered association lists (CPython dict semantics) -/

section AList

variable {κ : Type} [DecidableEq κ] {α : Type}

/-- Python `d[k]` / `d.get(k)`: value at the first occurrence of key `k`. -/
def alGet : List (κ × α) → κ → Option α
  | [], _ => none
  | e :: rest, k => if e.1 = k then some e.2 else alGet rest k

/-- Python `list(d.keys())`. -/
def alKeys (l : List (κ × α)) : List κ := l.map Prod.fst

/-- Replace the value at key `k` in place (used when `k` is present). -/
def alReplace : List (κ × α) → κ → α → List (κ × α)
  | [], _, _ => []
  | e :: rest, k, v =>
    if e.1 = k then (k, v) :: alReplace rest k v else e :: alReplace rest k v

/-- Python `d[k] = v`: update in place when the key exists (keeping its insertion
position), append otherwise. -/
def alSet (l : List (κ × α)) (k : κ) (v : α) : List (κ × α) :=
  if k ∈ alKeys l then alReplace l k v else l ++ [(k, v)]

/-- In-place mutation of the value stored at key `k`
(e.g. `players[uid]["count"] += 1`). -/
def alMod : List (κ × α) → κ → (α → α) → List (κ × α)
  | [], _, _ => []
  | e :: rest, k, f =>
    if e.1 = k then (e.1, f e.2) :: alMod rest k f else e :: alMod rest k f

/-- Python `del d[k]`. -/
def alDel : List (κ × α) → κ → List (κ × α)
  | [], _ => []
  | e :: rest, k => if e.1 = k then alDel rest k else e :: alDel rest k

end AList

/-- The room registry `BATTLE_ROOMS`. -/
abbrev Reg := List (String × Room)

/-- Constant `BATTLE_DURATION = 60` seconds. -/
def BATTLE_DURATION : Nat := 60

/-- The alphabet of `_gen_code`. -/
def code_alphabet : String := "ABCDEFGHJKLMNPQRSTUVWXYZ23456789"

/-- Source `_gen_code`: six independent draws from the alphabet.  The randomness of
`secrets.choice` is abstracted into the `pick` argument giving the index
drawn at each of the six positions. -/
def gen_code (pick : Fin 6 → Fin 32) : String :=
  ⟨(List.finRange 6).map (fun i => code_alphabet.data.getD (pick i).val 'A')⟩

/-- A constant draw (index 0 at every position), used to exhibit one concrete
output of `_gen_code`. -/
def pick0 : Fin 6 → Fin 32 := fun _ => 0

/-- Computes `max(0, BATTLE_DURATION - int(delta))` where `delta = now - started_at`. -/
def remainingOf (now s : Nat) : Nat :=
  (max 0 ((BATTLE_DURATION : Int) - ((now : Int) - (s : Int)))).toNat

/-- One step of the stable descending-by-`count` insertion used to model
`sorted(players.values(), key=lambda x: x.get("count", 0), reverse=True)`:
`p` is placed before the first element whose `count` is not greater than
`p`'s, so that equal counts keep their original relative order. -/
def insertByCount (p : Player) : List Player → List Player
  | [] => [p]
  | q :: rest => if p.count < q.count then q :: insertByCount p rest else p :: q :: rest

/-- Stable sort by strictly descending `count` (Python's `sorted` with
`reverse=True` is stable). -/
def sortByCountDesc (l : List Player) : List Player :=
  l.foldr insertByCount []

/-- Source `_room_state(room)`: builds the derived snapshot and, when the started
room's remaining time has reached 0 with no `finished_at` yet, writes
`finished_at = now` into the room as a side effect.  Returns the snapshot
together with the (possibly updated) room; note that the `finished` field
reads `room.get("finished_at")` after that write. -/
def room_state (now : Nat) (room : Room) : Snap × Room :=
  let started := room.started_at.isSome
  let remaining :=
    match room.started_at with
    | none => BATTLE_DURATION
    | some s => remainingOf now s
  let room :=
    match room.started_at with
    | none => room
    | some s =>
      if remainingOf now s = 0 ∧ room.finished_at = none then
        { room with finished_at := some now }
      else room
  (⟨room.code, room.creator_id, room.creator_name,
    sortByCountDesc (room.players.map Prod.snd),
    started, remaining, room.finished_at.isSome,
    room.surrendered, room.surrender_result, room.winner_id⟩,
   room)

/-- Source `_cleanup_rooms()`: drop rooms finished more than 300 s ago, and
unfinished rooms created more than 1800 s ago. -/
def cleanup_rooms (now : Nat) (reg : Reg) : Reg :=
  reg.filter (fun e =>
    match e.2.finished_at with
    | some f => decide (¬ ((now : Int) - (f : Int) > 300))
    | none => decide (¬ ((now : Int) - (e.2.created_at : Int) > 1800)))

/-- Source `battle_create`: cleanup, then store a fresh Lobby room with the caller
as sole player under the generated `code` (stored unconditionally — there
is no collision check), and return `_room_state` of it. -/
def battle_create (now uid : Nat) (uname code : String) (reg : Reg) : Snap × Reg :=
  let reg := cleanup_rooms now reg
  let room : Room :=
    { code := code, creator_id := uid, creator_name := uname,
      players := [(uid, ⟨uid, uname, 0, false⟩)],
      created_at := now, started_at := none, finished_at := none }
  ((room_state now room).1, alSet reg code room)

/-- Source `battle_join`. -/
def battle_join (now uid : Nat) (uname code : String) (reg : Reg) :
    Except BErr Snap × Reg :=
  match alGet reg code with
  | none => (.error .notFound, reg)
  | some room =>
    if room.finished_at.isSome then (.error .roomFinished, reg)
    else
      let room := { room with players := alSet room.players uid ⟨uid, uname, 0, false⟩ }
      let sr := room_state now room
      (.ok sr.1, alSet reg code sr.2)

/-- Source `battle_ready`. -/
def battle_ready (now uid : Nat) (rdy : Bool) (code : String) (reg : Reg) :
    Except BErr Snap × Reg :=
  match alGet reg code with
  | none => (.error .notFound, reg)
  | some room =>
    if room.finished_at.isSome then (.error .roomFinished, reg)
    else if room.started_at.isSome then (.error .alreadyStarted, reg)
    else if uid ∉ alKeys room.players then (.error .notInRoom, reg)
    else
      let room := { room with players := alMod room.players uid (fun p => { p with ready := rdy }) }
      let sr := room_state now room
      (.ok sr.1, alSet reg code sr.2)

/-- Source `battle_leave`: no phase guard; removes the player, transfers the host
role to the first remaining key when the host departs and others remain,
deletes the room when the last player departs. -/
def battle_leave (now uid : Nat) (code : String) (reg : Reg) : LeaveRes × Reg :=
  match alGet reg code with
  | none => (.err .notFound, reg)
  | some room =>
    if uid ∉ alKeys room.players then (.err .notInRoom, reg)
    else
      let isCreator := decide (room.creator_id = uid)
      let room := { room with players := alDel room.players uid }
      match room.players, isCreator with
      | (k, p) :: _, true =>
        let room := { room with creator_id := k, creator_name := p.username }
        let sr := room_state now room
        (.leftNewCreator sr.1, alSet reg code sr.2)
      | _, _ =>
        if room.players = [] then (.deleted, alDel reg code)
        else
          let sr := room_state now room
          (.left sr.1, alSet reg code sr.2)

/-- Source `battle_start`. -/
def battle_start (now uid : Nat) (code : String) (reg : Reg) :
    Except BErr Snap × Reg :=
  match alGet reg code with
  | none => (.error .notFound, reg)
  | some room =>
    if room.creator_id ≠ uid then (.error .forbidden, reg)
    else if room.finished_at.isSome then (.error .roomFinished, reg)
    else if room.started_at.isSome then
      let sr := room_state now room
      (.ok sr.1, alSet reg code sr.2)
    else if room.players.length < 2 then (.error .tooFewPlayers, reg)
    else
      let room := { room with started_at := some now, finished_at := none }
      let sr := room_state now room
      (.ok sr.1, alSet reg code sr.2)

/-- Python `players[user_id]["count"] += 1`. -/
def incCount (q : Player) : Player := { q with count := q.count + 1 }

/-- Source `battle_tap`: reads the derived state first (which may lazily finalize an
expired room); on the already-finished branch it (re)writes
`finished_at = now` and fails; otherwise it auto-admits a missing caller
and increments their count by 1. -/
def battle_tap (now uid : Nat) (uname code : String) (reg : Reg) :
    Except BErr Snap × Reg :=
  match alGet reg code with
  | none => (.error .notFound, reg)
  | some room =>
    let str := room_state now room
    let room := str.2
    if str.1.started = false then (.error .notStarted, alSet reg code room)
    else if str.1.finished = true ∨ str.1.remaining ≤ 0 then
      let room := { room with finished_at := some now }
      (.error .alreadyOver, alSet reg code room)
    else
      let players :=
        if uid ∈ alKeys room.players then room.players
        else room.players ++ [(uid, ⟨uid, uname, 0, false⟩)]
      let room := { room with players := alMod players uid incCount }
      let sr := room_state now room
      (.ok sr.1, alSet reg code sr.2)

/-- Source `battle_state`. -/
def battle_state (now : Nat) (code : String) (reg : Reg) :
    Except BErr Snap × Reg :=
  match alGet reg code with
  | none => (.error .notFound, reg)
  | some room =>
    let sr := room_state now room
    (.ok sr.1, alSet reg code sr.2)

/-- Source `battle_surrender`: records the caller in `surrendered`; if everyone has
surrendered the room finishes as a draw, otherwise the first player (in
insertion order) not in `surrendered` is declared winner and the room
finishes — the `if winner_id:` truthiness test of the source is the
`w ≠ 0` guard here. -/
def battle_surrender (now uid : Nat) (code : String) (reg : Reg) :
    Except BErr Snap × Reg :=
  match alGet reg code with
  | none => (.error .notFound, reg)
  | some room =>
    let str := room_state now room
    let room := str.2
    if str.1.started = false then (.error .notStarted, alSet reg code room)
    else if str.1.finished = true then (.error .alreadyOver, alSet reg code room)
    else if ¬ ∃ p ∈ str.1.players, p.user_id = uid then
      (.error .notInRoom, alSet reg code room)
    else
      let room :=
        { room with surrendered :=
            if uid ∈ room.surrendered then room.surrendered
            else room.surrendered ++ [uid] }
      if room.players.length ≤ room.surrendered.length then
        let room := { room with finished_at := some now, surrender_result := some "draw" }
        let sr := room_state now room
        (.ok sr.1, alSet reg code sr.2)
      else
        match room.players.find? (fun e => decide (e.1 ∉ room.surrendered)) with
        | some w =>
          if w.1 ≠ 0 then
            let room :=
              { room with finished_at := some now,
                          surrender_result := some "surrender",
                          winner_id := some w.1 }
            let sr := room_state now room
            (.ok sr.1, alSet reg code sr.2)
          else
            let sr := room_state now room
            (.ok sr.1, alSet reg code sr.2)
        | none =>
          let sr := room_state now room
          (.ok sr.1, alSet reg code sr.2)

/-- Source `battle_rooms` (listing): cleanup, then the open rooms (no `started_at`,
no `finished_at`) summarized, newest first. -/
def battle_rooms (now : Nat) (reg : Reg) : List (String × String × Nat × Nat) × Reg :=
  let reg := cleanup_rooms now reg
  let opens := reg.filter (fun e => e.2.started_at = none ∧ e.2.finished_at = none)
  let rows := opens.map (fun e =>
    let st := (room_state now e.2).1
    (st.code, st.creator_name, st.players.length, e.2.created_at))
  (rows.mergeSort (fun a b => b.2.2.2 ≤ a.2.2.2), reg)

/-- N successive taps by the same caller (used to state the claim
"tapping N times"). -/
def tapIter (now uid : Nat) (uname code : String) : Nat → Reg → Reg
  | 0, reg => reg
  | n + 1, reg => tapIter now uid uname code n (battle_tap now uid uname code reg).2

/-- The registry invariant of the spec: every stored room has at least one
player. -/
def RegWF (reg : Reg) : Prop := ∀ e ∈ reg, e.2.players ≠ []

/-! ## Association-list lemmas -/

section AListLemmas

variable {κ : Type} [DecidableEq κ] {α : Type}

theorem alGet_alReplace_self {l : List (κ × α)} {k : κ} (v : α) (h : k ∈ alKeys l) :
    alGet (alReplace l k v) k = some v := by
  induction l with
  | nil => simp [alKeys] at h
  | cons e rest ih =>
    by_cases he : e.1 = k
    · simp [alReplace, he, alGet]
    · have h' : k ∈ alKeys rest := by
        simp [alKeys] at h ⊢
        rcases h with h | h
        · exact absurd h.symm he
        · exact h
      simp [alReplace, he, alGet, ih h']

theorem alGet_append_self {l : List (κ × α)} {k : κ} (v : α) (h : k ∉ alKeys l) :
    alGet (l ++ [(k, v)]) k = some v := by
  induction l with
  | nil => simp [alGet]
  | cons e rest ih =>
    have he : ¬ e.1 = k := by
      intro hk; exact h (by simp [alKeys, hk])
    have h' : k ∉ alKeys rest := by
      intro hk; exact h (by simp [alKeys] at hk ⊢; exact Or.inr hk)
    simp [alGet, he, ih h']

theorem alGet_alSet_self (l : List (κ × α)) (k : κ) (v : α) :
    alGet (alSet l k v) k = some v := by
  unfold alSet
  split
  · exact alGet_alReplace_self v (by assumption)
  · exact alGet_append_self v (by assumption)

theorem alGet_alReplace_ne {l : List (κ × α)} {k k' : κ} (v : α) (h : k' ≠ k) :
    alGet (alReplace l k v) k' = alGet l k' := by
  induction l with
  | nil => simp [alReplace]
  | cons e rest ih =>
    by_cases he : e.1 = k
    · simp [alReplace, he, alGet, Ne.symm h, he ▸ Ne.symm h, ih]
    · simp only [alReplace, if_neg he, alGet, ih]

theorem alGet_append_ne (l : List (κ × α)) {k k' : κ} (v : α) (h : k' ≠ k) :
    alGet (l ++ [(k, v)]) k' = alGet l k' := by
  induction l with
  | nil => simp [alGet, Ne.symm h]
  | cons e rest ih =>
    by_cases he : e.1 = k'
    · simp [alGet, he]
    · simp [alGet, he, ih]

theorem alGet_alSet_ne (l : List (κ × α)) {k k' : κ} (v : α) (h : k' ≠ k) :
    alGet (alSet l k v) k' = alGet l k' := by
  unfold alSet
  split
  · exact alGet_alReplace_ne v h
  · exact alGet_append_ne l v h

theorem alGet_alMod_self {l : List (κ × α)} {k : κ} {v : α} (f : α → α)
    (h : alGet l k = some v) : alGet (alMod l k f) k = some (f v) := by
  induction l with
  | nil => simp [alGet] at h
  | cons e rest ih =>
    by_cases he : e.1 = k
    · simp [alGet, he] at h
      simp [alMod, he, alGet, h]
    · simp [alGet, he] at h
      simp [alMod, he, alGet, ih h]

theorem alGet_alMod_ne (l : List (κ × α)) {k k' : κ} (f : α → α) (h : k' ≠ k) :
    alGet (alMod l k f) k' = alGet l k' := by
  induction l with
  | nil => simp [alMod]
  | cons e rest ih =>
    by_cases he : e.1 = k
    · simp [alMod, he, alGet, Ne.symm h, ih]
    · simp only [alMod, if_neg he, alGet, ih]

theorem alGet_alDel_self (l : List (κ × α)) (k : κ) :
    alGet (alDel l k) k = none := by
  induction l with
  | nil => simp [alDel, alGet]
  | cons e rest ih =>
    by_cases he : e.1 = k
    · simp [alDel, he, ih]
    · simp [alDel, he, alGet, ih]

theorem alGet_alDel_ne (l : List (κ × α)) {k k' : κ} (h : k' ≠ k) :
    alGet (alDel l k) k' = alGet l k' := by
  induction l with
  | nil => simp [alDel]
  | cons e rest ih =>
    by_cases he : e.1 = k
    · simp [alDel, he, alGet, Ne.symm h, ih]
    · simp only [alDel, if_neg he, alGet, ih]

theorem alGet_mem_alKeys {l : List (κ × α)} {k : κ} {v : α}
    (h : alGet l k = some v) : k ∈ alKeys l := by
  induction l with
  | nil => simp [alGet] at h
  | cons e rest ih =>
    by_cases he : e.1 = k
    · simp [alKeys, he]
    · simp [alGet, he] at h
      simp [alKeys]
      exact Or.inr (by simpa [alKeys] using ih h)

theorem mem_alReplace {l : List (κ × α)} {k : κ} {v : α} {e : κ × α}
    (h : e ∈ alReplace l k v) : e ∈ l ∨ e = (k, v) := by
  induction l with
  | nil => simp [alReplace] at h
  | cons e' rest ih =>
    by_cases he : e'.1 = k
    · simp [alReplace, he] at h
      rcases h with h | h
      · exact Or.inr h
      · rcases ih h with h | h
        · exact Or.inl (by simp [h])
        · exact Or.inr h
    · simp [alReplace, he] at h
      rcases h with h | h
      · exact Or.inl (by simp [h])
      · rcases ih h with h | h
        · exact Or.inl (by simp [h])
        · exact Or.inr h

theorem mem_alSet {l : List (κ × α)} {k : κ} {v : α} {e : κ × α}
    (h : e ∈ alSet l k v) : e ∈ l ∨ e = (k, v) := by
  unfold alSet at h
  split at h
  · exact mem_alReplace h
  · simp at h
    rcases h with h | h
    · exact Or.inl h
    · exact Or.inr (by simp [h])

theorem alGet_mem {l : List (κ × α)} {k : κ} {v : α}
    (h : alGet l k = some v) : (k, v) ∈ l := by
  induction l with
  | nil => simp [alGet] at h
  | cons e rest ih =>
    rcases e with ⟨a, b⟩
    simp only [alGet] at h
    by_cases he : a = k
    · subst he
      rw [if_pos rfl] at h
      injection h with hv
      subst hv
      exact List.mem_cons_self _ _
    · rw [if_neg he] at h
      exact List.mem_cons_of_mem _ (ih h)

theorem alReplace_length (l : List (κ × α)) (k : κ) (v : α) :
    (alReplace l k v).length = l.length := by
  induction l with
  | nil => rfl
  | cons e rest ih =>
    by_cases he : e.1 = k <;> simp [alReplace, he, ih]

theorem alSet_ne_nil (l : List (κ × α)) (k : κ) (v : α) : alSet l k v ≠ [] := by
  unfold alSet
  split
  next hmem =>
    intro hc
    have h1 := alReplace_length l k v
    rw [hc] at h1
    rw [List.eq_nil_of_length_eq_zero h1.symm] at hmem
    simp [alKeys] at hmem
  next => simp

theorem mem_alDel {l : List (κ × α)} {k : κ} {e : κ × α}
    (h : e ∈ alDel l k) : e ∈ l := by
  induction l with
  | nil => simp [alDel] at h
  | cons e' rest ih =>
    by_cases he : e'.1 = k
    · simp [alDel, he] at h
      exact List.mem_cons_of_mem _ (ih h)
    · simp [alDel, he] at h
      rcases h with h | h
      · exact h ▸ List.mem_cons_self _ _
      · exact List.mem_cons_of_mem _ (ih h)

theorem alMod_length (l : List (κ × α)) (k : κ) (f : α → α) :
    (alMod l k f).length = l.length := by
  induction l with
  | nil => rfl
  | cons e rest ih =>
    by_cases he : e.1 = k <;> simp [alMod, he, ih]

theorem alMod_ne_nil {l : List (κ × α)} (k : κ) (f : α → α) (h : l ≠ []) :
    alMod l k f ≠ [] := by
  intro hc
  have := alMod_length l k f
  rw [hc] at this
  exact h (List.eq_nil_of_length_eq_zero this.symm)

theorem alKeys_alReplace (l : List (κ × α)) (k : κ) (v : α) :
    alKeys (alReplace l k v) = alKeys l := by
  induction l with
  | nil => rfl
  | cons e rest ih =>
    by_cases he : e.1 = k
    · simpa [alReplace, he, alKeys] using ih
    · simpa [alReplace, he, alKeys] using ih

theorem alKeys_alSet (l : List (κ × α)) (k : κ) (v : α) (h : k ∈ alKeys l) :
    alKeys (alSet l k v) = alKeys l := by
  unfold alSet
  rw [if_pos h]
  exact alKeys_alReplace l k v

theorem alKeys_alDel (l : List (κ × α)) (k : κ) :
    alKeys (alDel l k) = (alKeys l).filter (fun x => x ≠ k) := by
  induction l with
  | nil => rfl
  | cons e rest ih =>
    by_cases he : e.1 = k
    · simpa [alDel, he, alKeys, List.filter_cons] using ih
    · simpa [alDel, he, alKeys, List.filter_cons] using ih

end AListLemmas

/-! ## `remainingOf` and `room_state` lemmas -/

theorem remainingOf_eq_zero {now s : Nat} (h : s + BATTLE_DURATION ≤ now) :
    remainingOf now s = 0 := by
  unfold remainingOf BATTLE_DURATION at *
  omega

theorem remainingOf_ne_zero {now s : Nat} (h : now < s + BATTLE_DURATION) :
    remainingOf now s ≠ 0 := by
  unfold remainingOf BATTLE_DURATION at *
  omega

/-- The read `_room_state` leaves every stored field except `finished_at` unchanged,
and either leaves the room fully unchanged or just stamps `finished_at`. -/
theorem room_state_snd (now : Nat) (room : Room) :
    (room_state now room).2 = room ∨
      ((room_state now room).2 = { room with finished_at := some now } ∧
        room.finished_at = none) := by
  unfold room_state
  cases hs : room.started_at with
  | none => exact Or.inl rfl
  | some s =>
    by_cases hc : remainingOf now s = 0 ∧ room.finished_at = none
    · exact Or.inr ⟨by simp [hc], hc.2⟩
    · exact Or.inl (by simp [hc])

theorem room_state_snd_of_lobby {now : Nat} {room : Room}
    (h : room.started_at = none) : (room_state now room).2 = room := by
  unfold room_state
  simp [h]

theorem room_state_snd_of_live {now s : Nat} {room : Room}
    (hs : room.started_at = some s) (h : now < s + BATTLE_DURATION) :
    (room_state now room).2 = room := by
  unfold room_state
  simp [hs, remainingOf_ne_zero h]

theorem room_state_snd_of_finished {now : Nat} {room : Room} {f : Nat}
    (h : room.finished_at = some f) : (room_state now room).2 = room := by
  unfold room_state
  cases hs : room.started_at with
  | none => rfl
  | some s => simp [h]

theorem room_state_snd_of_expired {now s : Nat} {room : Room}
    (hs : room.started_at = some s) (hf : room.finished_at = none)
    (h : s + BATTLE_DURATION ≤ now) :
    (room_state now room).2 = { room with finished_at := some now } := by
  unfold room_state
  simp [hs, remainingOf_eq_zero h, hf]

theorem room_state_fst (now : Nat) (room : Room) :
    (room_state now room).1 =
      ⟨room.code, room.creator_id, room.creator_name,
        sortByCountDesc (room.players.map Prod.snd),
        room.started_at.isSome,
        (match room.started_at with
         | none => BATTLE_DURATION
         | some s => remainingOf now s),
        ((room_state now room).2).finished_at.isSome,
        room.surrendered, room.surrender_result, room.winner_id⟩ := by
  unfold room_state
  cases hs : room.started_at with
  | none => rfl
  | some s =>
    by_cases hc : remainingOf now s = 0 ∧ room.finished_at = none
    · simp [hc]
    · simp [hc]

theorem mem_insertByCount {p q : Player} {l : List Player} :
    q ∈ insertByCount p l ↔ q = p ∨ q ∈ l := by
  induction l with
  | nil => simp [insertByCount]
  | cons r rest ih =>
    by_cases hc : p.count < r.count
    · simp only [insertByCount, if_pos hc, List.mem_cons, ih]
      tauto
    · simp only [insertByCount, if_neg hc, List.mem_cons]

theorem mem_sortByCountDesc {p : Player} {l : List Player} :
    p ∈ sortByCountDesc l ↔ p ∈ l := by
  induction l with
  | nil => simp [sortByCountDesc]
  | cons q rest ih =>
    simp only [sortByCountDesc, List.foldr] at ih ⊢
    rw [mem_insertByCount, ih]
    simp

/-- The read `_room_state` changes no stored field other than (possibly) `finished_at`. -/
theorem room_state_fields (now : Nat) (r : Room) :
    ((room_state now r).2).players = r.players ∧
    ((room_state now r).2).creator_id = r.creator_id ∧
    ((room_state now r).2).creator_name = r.creator_name ∧
    ((room_state now r).2).started_at = r.started_at ∧
    ((room_state now r).2).surrendered = r.surrendered ∧
    ((room_state now r).2).surrender_result = r.surrender_result ∧
    ((room_state now r).2).winner_id = r.winner_id ∧
    ((room_state now r).2).code = r.code ∧
    ((room_state now r).2).created_at = r.created_at := by
  rcases room_state_snd now r with h | ⟨h, _⟩ <;> simp [h]

theorem room_state_finished_at (now : Nat) (r : Room) {f : Nat}
    (h : r.finished_at = some f) :
    ((room_state now r).2).finished_at = some f := by
  rw [room_state_snd_of_finished h, h]

/-- A tap on a started room that already has `finished_at` set fails on the
"已结束" branch. -/
theorem tap_on_finished {now uid : Nat} {uname code : String} {reg : Reg}
    {room : Room} {s f : Nat}
    (hreg : alGet reg code = some room)
    (hs : room.started_at = some s)
    (hf : room.finished_at = some f) :
    (battle_tap now uid uname code reg).1 = .error .alreadyOver := by
  unfold battle_tap
  have h2 : (room_state now room).2 = room := room_state_snd_of_finished hf
  simp [hreg, room_state_fst, h2, hs, hf]

/-! ## Claim theorems -/

/-- C4: for a started room whose 60-second window has elapsed and that has no
`finished_at` yet, a state read reports `remaining = 0` and `finished = true`,
writes `finished_at = now` into the stored room as a side effect, and a
subsequent tap (at any time, by anyone) fails with the Conflict error
`alreadyOver`. -/
theorem C4_expiry_read (now now2 s uid : Nat) (uname code : String) (reg : Reg)
    (room : Room)
    (hreg : alGet reg code = some room)
    (hs : room.started_at = some s)
    (hfin : room.finished_at = none)
    (hexp : s + 60 ≤ now) :
    battle_state now code reg =
      (.ok (room_state now room).1, alSet reg code { room with finished_at := some now }) ∧
    (room_state now room).1.remaining = 0 ∧
    (room_state now room).1.finished = true ∧
    alGet (alSet reg code { room with finished_at := some now }) code
      = some { room with finished_at := some now } ∧
    (battle_tap now2 uid uname code
      (alSet reg code { room with finished_at := some now })).1 = .error .alreadyOver ∧
    BErr.alreadyOver.isConflict = true := by
  have hexp' : s + BATTLE_DURATION ≤ now := by simpa [BATTLE_DURATION] using hexp
  have hsnd := room_state_snd_of_expired hs hfin hexp'
  refine ⟨?_, ?_, ?_, alGet_alSet_self _ _ _, ?_, rfl⟩
  · unfold battle_state
    simp [hreg, hsnd]
  · rw [room_state_fst]
    simp [hs, remainingOf_eq_zero hexp']
  · rw [room_state_fst]
    simp [hsnd]
  · exact tap_on_finished (alGet_alSet_self _ _ _) hs rfl

/-- C7: `battle_join` fails with NotFound when the room is absent and with the
Conflict error `roomFinished` when the room is finished (in both cases
leaving the registry untouched); in every other phase it succeeds and
inserts-or-overwrites the caller's player entry with `count = 0` and
`ready = false`, leaving every other player's entry unchanged. -/
theorem C7_join_spec (now uid : Nat) (uname code : String) (reg : Reg) :
    (alGet reg code = none →
      battle_join now uid uname code reg = (.error .notFound, reg)) ∧
    (∀ room f, alGet reg code = some room → room.finished_at = some f →
      battle_join now uid uname code reg = (.error .roomFinished, reg) ∧
      BErr.roomFinished.isConflict = true) ∧
    (∀ room, alGet reg code = some room → room.finished_at = none →
      alGet (battle_join now uid uname code reg).2 code = some (room_state now
        { room with players := alSet room.players uid ⟨uid, uname, 0, false⟩ }).2 ∧
      (battle_join now uid uname code reg).1 = .ok (room_state now
        { room with players := alSet room.players uid ⟨uid, uname, 0, false⟩ }).1 ∧
      alGet ((room_state now
        { room with players := alSet room.players uid ⟨uid, uname, 0, false⟩ }).2).players uid
          = some ⟨uid, uname, 0, false⟩ ∧
      ∀ u, u ≠ uid →
        alGet ((room_state now
          { room with players := alSet room.players uid ⟨uid, uname, 0, false⟩ }).2).players u
            = alGet room.players u) := by
  refine ⟨?_, ?_, ?_⟩
  · intro h
    unfold battle_join
    simp [h]
  · intro room f hreg hf
    refine ⟨?_, rfl⟩
    unfold battle_join
    simp [hreg, hf]
  · intro room hreg hf
    refine ⟨?_, ?_, ?_, ?_⟩
    · unfold battle_join
      simp only [hreg, hf, Option.isSome_none, Bool.false_eq_true, if_false]
      exact alGet_alSet_self _ _ _
    · unfold battle_join
      simp [hreg, hf]
    · rw [(room_state_fields _ _).1]
      exact alGet_alSet_self _ _ _
    · intro u hu
      rw [(room_state_fields _ _).1]
      exact alGet_alSet_ne _ _ hu

/-- Witness for C7 at a concrete Lobby room: user 2 joins room "EEEEEE"
owned by user 1; the entry for 2 appears with count 0 and ready false, and
user 1's entry is untouched. -/
theorem C7_join_spec_witness :
    alGet (battle_join 5 2 "B" "EEEEEE"
        [("EEEEEE", ⟨"EEEEEE", 1, "A", [(1, ⟨1, "A", 0, false⟩)], 0, none, none, [], none, none⟩)]).2
        "EEEEEE"
      = some (room_state 5
        { (⟨"EEEEEE", 1, "A", [(1, ⟨1, "A", 0, false⟩)], 0, none, none, [], none, none⟩ : Room) with
          players := alSet [(1, ⟨1, "A", 0, false⟩)] 2 ⟨2, "B", 0, false⟩ }).2 ∧
    alGet ((room_state 5
        { (⟨"EEEEEE", 1, "A", [(1, ⟨1, "A", 0, false⟩)], 0, none, none, [], none, none⟩ : Room) with
          players := alSet [(1, ⟨1, "A", 0, false⟩)] 2 ⟨2, "B", 0, false⟩ }).2).players 2
      = some ⟨2, "B", 0, false⟩ ∧
    alGet ((room_state 5
        { (⟨"EEEEEE", 1, "A", [(1, ⟨1, "A", 0, false⟩)], 0, none, none, [], none, none⟩ : Room) with
          players := alSet [(1, ⟨1, "A", 0, false⟩)] 2 ⟨2, "B", 0, false⟩ }).2).players 1
      = alGet [(1, (⟨1, "A", 0, false⟩ : Player))] 1 := by
  have h := (C7_join_spec 5 2 "B" "EEEEEE"
    [("EEEEEE", ⟨"EEEEEE", 1, "A", [(1, ⟨1, "A", 0, false⟩)], 0, none, none, [], none, none⟩)]).2.2
    ⟨"EEEEEE", 1, "A", [(1, ⟨1, "A", 0, false⟩)], 0, none, none, [], none, none⟩
    (by decide) rfl
  exact ⟨h.1, h.2.2.1, h.2.2.2 1 (by decide)⟩

/-- Witness for C4 at a concrete two-player room started at time 0 and read
at time 60. -/
theorem C4_expiry_read_witness :
    (room_state 60 (⟨"DDDDDD", 1, "A",
        [(1, ⟨1, "A", 0, false⟩), (2, ⟨2, "B", 0, false⟩)],
        0, some 0, none, [], none, none⟩ : Room)).1.remaining = 0 ∧
    (room_state 60 (⟨"DDDDDD", 1, "A",
        [(1, ⟨1, "A", 0, false⟩), (2, ⟨2, "B", 0, false⟩)],
        0, some 0, none, [], none, none⟩ : Room)).1.finished = true ∧
    (battle_tap 61 1 "A" "DDDDDD"
      (alSet [("DDDDDD", ⟨"DDDDDD", 1, "A",
          [(1, ⟨1, "A", 0, false⟩), (2, ⟨2, "B", 0, false⟩)],
          0, some 0, none, [], none, none⟩)] "DDDDDD"
        { (⟨"DDDDDD", 1, "A",
            [(1, ⟨1, "A", 0, false⟩), (2, ⟨2, "B", 0, false⟩)],
            0, some 0, none, [], none, none⟩ : Room) with
          finished_at := some 60 })).1 = .error .alreadyOver := by
  have h := C4_expiry_read 60 61 0 1 "A" "DDDDDD"
    [("DDDDDD", ⟨"DDDDDD", 1, "A",
        [(1, ⟨1, "A", 0, false⟩), (2, ⟨2, "B", 0, false⟩)],
        0, some 0, none, [], none, none⟩)]
    ⟨"DDDDDD", 1, "A", [(1, ⟨1, "A", 0, false⟩), (2, ⟨2, "B", 0, false⟩)],
        0, some 0, none, [], none, none⟩
    (by decide) rfl rfl (by decide)
  exact ⟨h.2.1, h.2.2.1, h.2.2.2.2.1⟩

/-- A tap by an existing participant of a live Active room increments exactly
that participant's count in place. -/
theorem tap_live_step {now s uid : Nat} {uname code : String} {reg : Reg}
    {room : Room} {p : Player}
    (hreg : alGet reg code = some room)
    (hs : room.started_at = some s)
    (hfin : room.finished_at = none)
    (hlive : now < s + BATTLE_DURATION)
    (hp : alGet room.players uid = some p) :
    battle_tap now uid uname code reg =
      (.ok (room_state now { room with players := alMod room.players uid incCount }).1,
        alSet reg code { room with players := alMod room.players uid incCount }) := by
  have h1 : (room_state now room).2 = room := room_state_snd_of_live hs hlive
  have hkey : uid ∈ alKeys room.players := alGet_mem_alKeys hp
  have h2 : (room_state now
      { room with players := alMod room.players uid incCount, started_at := some s, finished_at := none }).2 =
      { room with players := alMod room.players uid incCount, started_at := some s, finished_at := none } :=
    room_state_snd_of_live (s := s) rfl hlive
  unfold battle_tap
  simp only [hreg]
  simp [room_state_fst, h1, h2, hs, hfin, hkey, Nat.le_zero,
    remainingOf_ne_zero hlive]

/-- Iterating `tap_live_step`: N taps add N to the tapping participant's
count and leave everything else alone. -/
theorem tapIter_live {now s uid : Nat} {uname code : String} (N : Nat) :
    ∀ (reg : Reg) (room : Room) (p : Player),
      alGet reg code = some room →
      room.started_at = some s → room.finished_at = none →
      now < s + BATTLE_DURATION →
      alGet room.players uid = some p →
      alGet (tapIter now uid uname code N reg) code =
        some { room with players := (fun l => alMod l uid incCount)^[N] room.players } ∧
      alGet ((fun l => alMod l uid incCount)^[N] room.players) uid
        = some { p with count := p.count + N } ∧
      (∀ u, u ≠ uid →
        alGet ((fun l => alMod l uid incCount)^[N] room.players) u
          = alGet room.players u) := by
  induction N with
  | zero =>
    intro reg room p hreg hs hfin hlive hp
    refine ⟨by simpa [tapIter] using hreg, by simpa using hp, fun u _ => by simp⟩
  | succ n ih =>
    intro reg room p hreg hs hfin hlive hp
    have hstep := @tap_live_step now s uid uname code reg room p hreg hs hfin hlive hp
    have hreg' : alGet (battle_tap now uid uname code reg).2 code =
        some { room with players := alMod room.players uid incCount } := by
      rw [hstep]
      exact alGet_alSet_self _ _ _
    have hp' : alGet ({ room with players := alMod room.players uid incCount }).players uid =
        some (incCount p) :=
      alGet_alMod_self _ hp
    obtain ⟨g1, g2, g3⟩ := ih (battle_tap now uid uname code reg).2
      { room with players := alMod room.players uid incCount } (incCount p) hreg' hs hfin hlive hp'
    have hit : (fun l => alMod l uid incCount)^[n] (alMod room.players uid incCount) =
        (fun l => alMod l uid incCount)^[n + 1] room.players := by
      rw [Function.iterate_succ_apply]
    refine ⟨?_, ?_, ?_⟩
    · show alGet (tapIter now uid uname code n (battle_tap now uid uname code reg).2) code = _
      rw [g1, ← hit]
    · rw [← hit, g2]
      show some { p with count := p.count + 1 + n } = _
      have hcnt : p.count + 1 + n = p.count + (n + 1) := by omega
      rw [hcnt]
    · intro u hu
      rw [← hit, g3 u hu]
      exact alGet_alMod_ne _ _ hu

/-- C5: in a live Active room, N taps by a participant add exactly N to that
participant's count and change no other player's entry; a tap on a Lobby
room or on a Finished room fails with a Conflict error and leaves every
player entry (in particular every count) unchanged. -/
theorem C5_tap_counts (now uid : Nat) (uname code : String) (reg : Reg) (room : Room)
    (hreg : alGet reg code = some room) :
    (∀ s p N, room.started_at = some s → room.finished_at = none → now < s + 60 →
      alGet room.players uid = some p →
      alGet (tapIter now uid uname code N reg) code =
        some { room with players := (fun l => alMod l uid incCount)^[N] room.players } ∧
      alGet ((fun l => alMod l uid incCount)^[N] room.players) uid
        = some { p with count := p.count + N } ∧
      (∀ u, u ≠ uid →
        alGet ((fun l => alMod l uid incCount)^[N] room.players) u
          = alGet room.players u)) ∧
    (room.started_at = none →
      (battle_tap now uid uname code reg).1 = .error .notStarted ∧
      BErr.notStarted.isConflict = true ∧
      alGet (battle_tap now uid uname code reg).2 code = some room) ∧
    (∀ s f, room.started_at = some s → room.finished_at = some f →
      (battle_tap now uid uname code reg).1 = .error .alreadyOver ∧
      BErr.alreadyOver.isConflict = true ∧
      alGet (battle_tap now uid uname code reg).2 code =
        some { room with finished_at := some now }) := by
  refine ⟨?_, ?_, ?_⟩
  · intro s p N hs hfin hlive hp
    exact tapIter_live N reg room p hreg hs hfin
      (by simpa [BATTLE_DURATION] using hlive) hp
  · intro hs
    have h1 : (room_state now room).2 = room := room_state_snd_of_lobby hs
    refine ⟨?_, rfl, ?_⟩
    · unfold battle_tap
      simp [hreg, room_state_fst, hs]
    · unfold battle_tap
      simp only [hreg]
      simp [room_state_fst, h1, hs, alGet_alSet_self]
  · intro s f hs hf
    have h1 : (room_state now room).2 = room := room_state_snd_of_finished hf
    refine ⟨tap_on_finished hreg hs hf, rfl, ?_⟩
    unfold battle_tap
    simp only [hreg]
    simp [room_state_fst, h1, hs, hf, alGet_alSet_self]

/-- Witness for C5: player 1 taps three times in a live two-player room;
their count goes from 0 to 3 and player 2's entry is untouched. -/
theorem C5_tap_counts_witness :
    alGet (tapIter 5 1 "A" "GGGGGG" 3
        [("GGGGGG", ⟨"GGGGGG", 1, "A",
          [(1, ⟨1, "A", 0, false⟩), (2, ⟨2, "B", 0, false⟩)],
          0, some 0, none, [], none, none⟩)]) "GGGGGG" =
      some { (⟨"GGGGGG", 1, "A",
          [(1, ⟨1, "A", 0, false⟩), (2, ⟨2, "B", 0, false⟩)],
          0, some 0, none, [], none, none⟩ : Room) with
        players := (fun l => alMod l 1 incCount)^[3]
          [(1, ⟨1, "A", 0, false⟩), (2, ⟨2, "B", 0, false⟩)] } ∧
    alGet ((fun l => alMod l 1 incCount)^[3]
        [(1, (⟨1, "A", 0, false⟩ : Player)), (2, ⟨2, "B", 0, false⟩)]) 1 =
      some ⟨1, "A", 0 + 3, false⟩ ∧
    alGet ((fun l => alMod l 1 incCount)^[3]
        [(1, (⟨1, "A", 0, false⟩ : Player)), (2, ⟨2, "B", 0, false⟩)]) 2 =
      alGet [(1, (⟨1, "A", 0, false⟩ : Player)), (2, ⟨2, "B", 0, false⟩)] 2 := by
  have h := (C5_tap_counts 5 1 "A" "GGGGGG"
      [("GGGGGG", ⟨"GGGGGG", 1, "A",
        [(1, ⟨1, "A", 0, false⟩), (2, ⟨2, "B", 0, false⟩)],
        0, some 0, none, [], none, none⟩)]
      ⟨"GGGGGG", 1, "A", [(1, ⟨1, "A", 0, false⟩), (2, ⟨2, "B", 0, false⟩)],
        0, some 0, none, [], none, none⟩ (by decide)).1
    0 ⟨1, "A", 0, false⟩ 3 rfl rfl (by decide) (by decide)
  exact ⟨h.1, h.2.1, h.2.2 2 (by decide)⟩

/-- C6: `battle_start` fails with NotFound when the room is absent; else with
Forbidden when the caller is not the current `creator_id`; else with the
Conflict error `roomFinished` when finished; else, when already started, it
succeeds idempotently, returning the current snapshot and leaving
`started_at` unchanged; else it fails with the Conflict error
`tooFewPlayers` when fewer than 2 players are present; otherwise it starts
the room by setting `started_at := now`. -/
theorem C6_start_spec (now uid : Nat) (code : String) (reg : Reg) :
    (alGet reg code = none → battle_start now uid code reg = (.error .notFound, reg)) ∧
    (∀ room, alGet reg code = some room →
      (room.creator_id ≠ uid → battle_start now uid code reg = (.error .forbidden, reg)) ∧
      (∀ f, room.creator_id = uid → room.finished_at = some f →
        battle_start now uid code reg = (.error .roomFinished, reg) ∧
        BErr.roomFinished.isConflict = true) ∧
      (∀ s, room.creator_id = uid → room.finished_at = none → room.started_at = some s →
        battle_start now uid code reg =
          (.ok (room_state now room).1, alSet reg code (room_state now room).2) ∧
        ((room_state now room).2).started_at = some s) ∧
      (room.creator_id = uid → room.finished_at = none → room.started_at = none →
        room.players.length < 2 →
        battle_start now uid code reg = (.error .tooFewPlayers, reg) ∧
        BErr.tooFewPlayers.isConflict = true) ∧
      (room.creator_id = uid → room.finished_at = none → room.started_at = none →
        ¬ room.players.length < 2 →
        battle_start now uid code reg =
          (.ok (room_state now { room with started_at := some now, finished_at := none }).1,
            alSet reg code { room with started_at := some now, finished_at := none }) ∧
        alGet (battle_start now uid code reg).2 code
          = some { room with started_at := some now, finished_at := none })) := by
  refine ⟨?_, ?_⟩
  · intro h
    unfold battle_start
    simp [h]
  · intro room hreg
    refine ⟨?_, ?_, ?_, ?_, ?_⟩
    · intro hc
      unfold battle_start
      simp [hreg, hc]
    · intro f hc hf
      refine ⟨?_, rfl⟩
      unfold battle_start
      simp [hreg, hc, hf]
    · intro s hc hf hst
      constructor
      · unfold battle_start
        simp [hreg, hc, hf, hst]
      · rw [(room_state_fields _ _).2.2.2.1, hst]
    · intro hc hf hst hlen
      refine ⟨?_, rfl⟩
      unfold battle_start
      simp [hreg, hc, hf, hst, hlen]
    · intro hc hf hst hlen
      have hcc : ¬ room.creator_id ≠ uid := by simp [hc]
      have hlive : (room_state now
          { room with started_at := some now, finished_at := none }).2 =
          { room with started_at := some now, finished_at := none } :=
        room_state_snd_of_live (s := now) rfl (by unfold BATTLE_DURATION; omega)
      have heq : battle_start now uid code reg =
          (.ok (room_state now { room with started_at := some now, finished_at := none }).1,
            alSet reg code { room with started_at := some now, finished_at := none }) := by
        unfold battle_start
        simp only [hreg]
        rw [if_neg hcc]
        simp only [hf, hst, Option.isSome_none, Bool.false_eq_true, if_false, if_neg hlen]
        rw [hlive]
      refine ⟨heq, ?_⟩
      rw [heq]
      exact alGet_alSet_self _ _ _

/-- C9: `battle_leave` has no phase guard: it fails only with `notFound`
(room absent) or `notInRoom` (caller not a participant) — never with a
Conflict error — so a participant can leave in any phase; leaving a live
Active room records no surrender and triggers no resolution: the stored
room keeps `started_at`, a `none` `finished_at`, and unchanged
`surrendered` / `surrender_result` / `winner_id`, with only the departing
player's entry removed (possibly leaving a single player). -/
theorem C9_leave_spec (now uid : Nat) (code : String) (reg : Reg) :
    (alGet reg code = none → battle_leave now uid code reg = (.err .notFound, reg)) ∧
    (∀ room, alGet reg code = some room → uid ∉ alKeys room.players →
      battle_leave now uid code reg = (.err .notInRoom, reg)) ∧
    (∀ e, (battle_leave now uid code reg).1 = .err e →
      (e = .notFound ∨ e = .notInRoom) ∧ e.isConflict = false) ∧
    (∀ room s, alGet reg code = some room → uid ∈ alKeys room.players →
      room.started_at = some s → room.finished_at = none → now < s + 60 →
      alDel room.players uid ≠ [] →
      (alGet (battle_leave now uid code reg).2 code).map Room.players
        = some (alDel room.players uid) ∧
      (alGet (battle_leave now uid code reg).2 code).map Room.started_at = some (some s) ∧
      (alGet (battle_leave now uid code reg).2 code).map Room.finished_at = some none ∧
      (alGet (battle_leave now uid code reg).2 code).map Room.surrendered
        = some room.surrendered ∧
      (alGet (battle_leave now uid code reg).2 code).map Room.surrender_result
        = some room.surrender_result ∧
      (alGet (battle_leave now uid code reg).2 code).map Room.winner_id
        = some room.winner_id) := by
  refine ⟨?_, ?_, ?_, ?_⟩
  · intro h
    unfold battle_leave
    simp [h]
  · intro room hreg hm
    unfold battle_leave
    simp [hreg, hm]
  · intro e he
    unfold battle_leave at he
    cases hg : alGet reg code with
    | none =>
      rw [hg] at he
      simp at he
      rw [← he]
      exact ⟨Or.inl rfl, rfl⟩
    | some room =>
      rw [hg] at he
      by_cases hm : uid ∈ alKeys room.players
      · rcases hdel : alDel room.players uid with _ | ⟨⟨k, p⟩, rest⟩ <;>
          by_cases hcr : room.creator_id = uid <;>
          simp [hm, hdel, hcr] at he
      · simp [hm] at he
        rw [← he]
        exact ⟨Or.inr rfl, rfl⟩
  · intro room s hreg hm hs hfin hlive hne
    have hlive' : now < s + BATTLE_DURATION := by simpa [BATTLE_DURATION] using hlive
    rcases hdel : alDel room.players uid with _ | ⟨⟨k, p⟩, rest⟩
    · exact absurd hdel hne
    by_cases hcr : room.creator_id = uid
    · have hrs : (room_state now { room with players := (k, p) :: rest, creator_id := k, creator_name := p.username }).2 = { room with players := (k, p) :: rest, creator_id := k, creator_name := p.username } :=
        room_state_snd_of_live (s := s) hs hlive'
      have heq : battle_leave now uid code reg =
          (.leftNewCreator (room_state now { room with players := (k, p) :: rest, creator_id := k, creator_name := p.username }).1, alSet reg code { room with players := (k, p) :: rest, creator_id := k, creator_name := p.username }) := by
        unfold battle_leave
        simp [hreg, hm, hdel, hcr, hrs]
      rw [heq]
      simp [alGet_alSet_self, hdel, hs, hfin]
    · have hrs : (room_state now { room with players := (k, p) :: rest }).2 =
          { room with players := (k, p) :: rest } :=
        room_state_snd_of_live (s := s) hs hlive'
      have heq : battle_leave now uid code reg =
          (.left (room_state now { room with players := (k, p) :: rest }).1,
            alSet reg code { room with players := (k, p) :: rest }) := by
        unfold battle_leave
        simp [hreg, hm, hdel, hcr, hrs]
      rw [heq]
      simp [alGet_alSet_self, hdel, hs, hfin]

/-- Witness for C9: player 2 leaves a live Active two-player room; the room
survives with the single player 1, still started, unfinished, with no
surrender bookkeeping touched. -/
theorem C9_leave_spec_witness :
    (alGet (battle_leave 5 2 "HHHHHH"
        [("HHHHHH", ⟨"HHHHHH", 1, "A",
          [(1, ⟨1, "A", 0, false⟩), (2, ⟨2, "B", 0, false⟩)],
          0, some 0, none, [], none, none⟩)]).2 "HHHHHH").map Room.players
      = some (alDel [(1, ⟨1, "A", 0, false⟩), (2, ⟨2, "B", 0, false⟩)] 2) ∧
    (alGet (battle_leave 5 2 "HHHHHH"
        [("HHHHHH", ⟨"HHHHHH", 1, "A",
          [(1, ⟨1, "A", 0, false⟩), (2, ⟨2, "B", 0, false⟩)],
          0, some 0, none, [], none, none⟩)]).2 "HHHHHH").map Room.started_at
      = some (some 0) ∧
    (alGet (battle_leave 5 2 "HHHHHH"
        [("HHHHHH", ⟨"HHHHHH", 1, "A",
          [(1, ⟨1, "A", 0, false⟩), (2, ⟨2, "B", 0, false⟩)],
          0, some 0, none, [], none, none⟩)]).2 "HHHHHH").map Room.finished_at
      = some none ∧
    (alGet (battle_leave 5 2 "HHHHHH"
        [("HHHHHH", ⟨"HHHHHH", 1, "A",
          [(1, ⟨1, "A", 0, false⟩), (2, ⟨2, "B", 0, false⟩)],
          0, some 0, none, [], none, none⟩)]).2 "HHHHHH").map Room.winner_id
      = some none := by
  have h := (C9_leave_spec 5 2 "HHHHHH"
      [("HHHHHH", ⟨"HHHHHH", 1, "A",
        [(1, ⟨1, "A", 0, false⟩), (2, ⟨2, "B", 0, false⟩)],
        0, some 0, none, [], none, none⟩)]).2.2.2
    ⟨"HHHHHH", 1, "A", [(1, ⟨1, "A", 0, false⟩), (2, ⟨2, "B", 0, false⟩)],
      0, some 0, none, [], none, none⟩ 0
    (by decide) (by decide) rfl rfl (by decide) (by decide)
  exact ⟨h.1, h.2.1, h.2.2.1, h.2.2.2.2.2⟩

/-- C10: when the host leaves and other players remain, the new host is the
player whose entry heads the remaining `players` mapping — the first key in
insertion order — and this is deterministic for a given join history since
re-joining an existing key keeps its position (`alKeys (alSet l k v) =
alKeys l`) and deletion keeps the relative order of the surviving keys
(`alKeys (alDel l u)` is the original key sequence filtered). -/
theorem C10_host_transfer (now uid : Nat) (code : String) (reg : Reg) :
    (∀ room k p rest, alGet reg code = some room → uid ∈ alKeys room.players →
      room.creator_id = uid → alDel room.players uid = (k, p) :: rest →
      battle_leave now uid code reg =
        (.leftNewCreator (room_state now { room with players := (k, p) :: rest, creator_id := k, creator_name := p.username }).1, alSet reg code (room_state now { room with players := (k, p) :: rest, creator_id := k, creator_name := p.username }).2) ∧
      ((room_state now { room with players := (k, p) :: rest, creator_id := k, creator_name := p.username }).2).creator_id = k ∧
      ((room_state now { room with players := (k, p) :: rest, creator_id := k, creator_name := p.username }).2).creator_name = p.username) ∧
    (∀ (l : List (Nat × Player)) (k : Nat) (v : Player), k ∈ alKeys l →
      alKeys (alSet l k v) = alKeys l) ∧
    (∀ (l : List (Nat × Player)) (u : Nat),
      alKeys (alDel l u) = (alKeys l).filter (fun x => x ≠ u)) := by
  refine ⟨?_, fun l k v h => alKeys_alSet l k v h, fun l u => alKeys_alDel l u⟩
  intro room k p rest hreg hm hcr hdel
  refine ⟨?_, ?_, ?_⟩
  · unfold battle_leave
    simp [hreg, hm, hdel, hcr]
  · exact (room_state_fields _ _).2.1
  · exact (room_state_fields _ _).2.2.1

/-- Witness for C10: host 1 leaves a three-player room; the earliest-joined
remaining player (2) becomes host. -/
theorem C10_host_transfer_witness :
    battle_leave 9 1 "JJJJJJ"
        [("JJJJJJ", ⟨"JJJJJJ", 1, "A",
          [(1, ⟨1, "A", 0, false⟩), (2, ⟨2, "B", 0, false⟩), (3, ⟨3, "C", 0, false⟩)],
          0, none, none, [], none, none⟩)] =
      (.leftNewCreator (room_state 9 (⟨"JJJJJJ", 2, "B",
          [(2, ⟨2, "B", 0, false⟩), (3, ⟨3, "C", 0, false⟩)],
          0, none, none, [], none, none⟩ : Room)).1,
        alSet [("JJJJJJ", ⟨"JJJJJJ", 1, "A",
            [(1, ⟨1, "A", 0, false⟩), (2, ⟨2, "B", 0, false⟩), (3, ⟨3, "C", 0, false⟩)],
            0, none, none, [], none, none⟩)] "JJJJJJ"
          (room_state 9 (⟨"JJJJJJ", 2, "B",
            [(2, ⟨2, "B", 0, false⟩), (3, ⟨3, "C", 0, false⟩)],
            0, none, none, [], none, none⟩ : Room)).2) ∧
    ((room_state 9 (⟨"JJJJJJ", 2, "B",
        [(2, ⟨2, "B", 0, false⟩), (3, ⟨3, "C", 0, false⟩)],
        0, none, none, [], none, none⟩ : Room)).2).creator_id = 2 := by
  have h := (C10_host_transfer 9 1 "JJJJJJ"
      [("JJJJJJ", ⟨"JJJJJJ", 1, "A",
        [(1, ⟨1, "A", 0, false⟩), (2, ⟨2, "B", 0, false⟩), (3, ⟨3, "C", 0, false⟩)],
        0, none, none, [], none, none⟩)]).1
    ⟨"JJJJJJ", 1, "A",
      [(1, ⟨1, "A", 0, false⟩), (2, ⟨2, "B", 0, false⟩), (3, ⟨3, "C", 0, false⟩)],
      0, none, none, [], none, none⟩
    2 ⟨2, "B", 0, false⟩ [(3, ⟨3, "C", 0, false⟩)]
    (by decide) (by decide) rfl (by decide)
  exact ⟨h.1, h.2.1⟩

theorem RegWF_alSet {reg : Reg} {c : String} {r : Room}
    (h : RegWF reg) (hr : r.players ≠ []) : RegWF (alSet reg c r) := by
  intro e he
  rcases mem_alSet he with he | he
  · exact h e he
  · rw [he]
    exact hr

theorem RegWF_alDel {reg : Reg} (c : String) (h : RegWF reg) : RegWF (alDel reg c) :=
  fun e he => h e (mem_alDel he)

theorem RegWF_cleanup (now : Nat) {reg : Reg} (h : RegWF reg) :
    RegWF (cleanup_rooms now reg) :=
  fun e he => h e (List.mem_of_mem_filter he)

theorem RegWF_of_alGet {reg : Reg} {code : String} {room : Room}
    (h : RegWF reg) (hg : alGet reg code = some room) : room.players ≠ [] :=
  h (code, room) (alGet_mem hg)

theorem players_room_state_ne_nil {now : Nat} {r : Room} (h : r.players ≠ []) :
    ((room_state now r).2).players ≠ [] := by
  rw [(room_state_fields now r).1]
  exact h

theorem RegWF_battle_create (now uid : Nat) (uname code : String) (reg : Reg)
    (h : RegWF reg) : RegWF (battle_create now uid uname code reg).2 := by
  unfold battle_create
  exact RegWF_alSet (RegWF_cleanup now h) (by simp)

theorem RegWF_battle_join (now uid : Nat) (uname code : String) (reg : Reg)
    (h : RegWF reg) : RegWF (battle_join now uid uname code reg).2 := by
  unfold battle_join
  cases hg : alGet reg code with
  | none => exact h
  | some room =>
    dsimp only
    repeat' split
    all_goals first
      | exact h
      | exact RegWF_alSet h (players_room_state_ne_nil (alSet_ne_nil _ _ _))

theorem RegWF_battle_ready (now uid : Nat) (rdy : Bool) (code : String) (reg : Reg)
    (h : RegWF reg) : RegWF (battle_ready now uid rdy code reg).2 := by
  unfold battle_ready
  cases hg : alGet reg code with
  | none => exact h
  | some room =>
    dsimp only
    repeat' split
    all_goals first
      | exact h
      | (apply RegWF_alSet h
         apply players_room_state_ne_nil
         exact alMod_ne_nil _ _ (RegWF_of_alGet h hg))

theorem RegWF_battle_start (now uid : Nat) (code : String) (reg : Reg)
    (h : RegWF reg) : RegWF (battle_start now uid code reg).2 := by
  unfold battle_start
  cases hg : alGet reg code with
  | none => exact h
  | some room =>
    dsimp only
    repeat' split
    all_goals first
      | exact h
      | (apply RegWF_alSet h
         apply players_room_state_ne_nil
         have hr := RegWF_of_alGet h hg
         exact hr)

theorem RegWF_battle_tap (now uid : Nat) (uname code : String) (reg : Reg)
    (h : RegWF reg) : RegWF (battle_tap now uid uname code reg).2 := by
  unfold battle_tap
  cases hg : alGet reg code with
  | none => exact h
  | some room =>
    have hne2 : ((room_state now room).2).players ≠ [] :=
      players_room_state_ne_nil (RegWF_of_alGet h hg)
    dsimp only
    repeat' split
    all_goals first
      | exact RegWF_alSet h hne2
      | (apply RegWF_alSet h
         apply players_room_state_ne_nil
         first
           | exact alMod_ne_nil _ _ hne2
           | exact alMod_ne_nil _ _ (List.append_ne_nil_of_right_ne_nil _ (by simp)))

theorem RegWF_battle_state (now : Nat) (code : String) (reg : Reg)
    (h : RegWF reg) : RegWF (battle_state now code reg).2 := by
  unfold battle_state
  cases hg : alGet reg code with
  | none => exact h
  | some room =>
    exact RegWF_alSet h (players_room_state_ne_nil (RegWF_of_alGet h hg))

theorem RegWF_battle_surrender (now uid : Nat) (code : String) (reg : Reg)
    (h : RegWF reg) : RegWF (battle_surrender now uid code reg).2 := by
  unfold battle_surrender
  cases hg : alGet reg code with
  | none => exact h
  | some room =>
    have hne2 : ((room_state now room).2).players ≠ [] :=
      players_room_state_ne_nil (RegWF_of_alGet h hg)
    dsimp only
    repeat' split
    all_goals first
      | exact RegWF_alSet h hne2
      | exact RegWF_alSet h (players_room_state_ne_nil hne2)

theorem RegWF_battle_leave (now uid : Nat) (code : String) (reg : Reg)
    (h : RegWF reg) : RegWF (battle_leave now uid code reg).2 := by
  unfold battle_leave
  cases hg : alGet reg code with
  | none => exact h
  | some room =>
    dsimp only
    repeat' split
    all_goals first
      | exact h
      | exact RegWF_alDel code h
      | (apply RegWF_alSet h
         apply players_room_state_ne_nil
         simp_all)

/-- C8: the spec invariant "players is never empty while the room exists":
every battle operation (and the garbage collector) preserves the registry
invariant that each stored room has a nonempty `players` mapping; moreover
`battle_leave` removes exactly the departing participant, and when the last
participant leaves, the room is deleted from the registry and a subsequent
lookup of the code finds nothing. -/
theorem C8_players_nonempty (now uid : Nat) (uname code : String) (rdy : Bool)
    (reg : Reg) :
    (RegWF reg → RegWF (battle_create now uid uname code reg).2) ∧
    (RegWF reg → RegWF (battle_join now uid uname code reg).2) ∧
    (RegWF reg → RegWF (battle_ready now uid rdy code reg).2) ∧
    (RegWF reg → RegWF (battle_start now uid code reg).2) ∧
    (RegWF reg → RegWF (battle_tap now uid uname code reg).2) ∧
    (RegWF reg → RegWF (battle_surrender now uid code reg).2) ∧
    (RegWF reg → RegWF (battle_state now code reg).2) ∧
    (RegWF reg → RegWF (battle_leave now uid code reg).2) ∧
    (RegWF reg → RegWF (cleanup_rooms now reg)) ∧
    (∀ room, alGet reg code = some room → uid ∈ alKeys room.players →
      alDel room.players uid = [] →
      battle_leave now uid code reg = (.deleted, alDel reg code) ∧
      alGet (alDel reg code) code = none) ∧
    (∀ room, alGet reg code = some room → uid ∈ alKeys room.players →
      alDel room.players uid ≠ [] →
      (alGet (battle_leave now uid code reg).2 code).map Room.players
        = some (alDel room.players uid)) := by
  refine ⟨RegWF_battle_create now uid uname code reg,
    RegWF_battle_join now uid uname code reg,
    RegWF_battle_ready now uid rdy code reg,
    RegWF_battle_start now uid code reg,
    RegWF_battle_tap now uid uname code reg,
    RegWF_battle_surrender now uid code reg,
    RegWF_battle_state now code reg,
    RegWF_battle_leave now uid code reg,
    fun h => RegWF_cleanup now h, ?_, ?_⟩
  · intro room hg hm hdel
    constructor
    · unfold battle_leave
      by_cases hcr : room.creator_id = uid <;>
        simp [hg, hm, hdel, hcr]
    · exact alGet_alDel_self reg code
  · intro room hg hm hdel
    rcases hdl : alDel room.players uid with _ | ⟨⟨k, p⟩, rest⟩
    · exact absurd hdl hdel
    by_cases hcr : room.creator_id = uid
    · have heq : battle_leave now uid code reg =
          (.leftNewCreator (room_state now { room with players := (k, p) :: rest, creator_id := k, creator_name := p.username }).1, alSet reg code (room_state now { room with players := (k, p) :: rest, creator_id := k, creator_name := p.username }).2) := by
        unfold battle_leave
        simp [hg, hm, hdl, hcr]
      rw [heq]
      simp only [alGet_alSet_self]
      simp [room_state_fields]
    · have heq : battle_leave now uid code reg =
          (.left (room_state now { room with players := (k, p) :: rest }).1,
            alSet reg code (room_state now { room with players := (k, p) :: rest }).2) := by
        unfold battle_leave
        simp [hg, hm, hdl, hcr]
      rw [heq]
      simp only [alGet_alSet_self]
      simp [room_state_fields]

/-- Every in-bounds `getD` draw from the code alphabet is a character of the
alphabet. -/
theorem code_alphabet_getD_mem (j : Fin 32) :
    code_alphabet.data.getD j.val 'A' ∈ code_alphabet.data := by
  revert j
  decide

/-- Counterexample to C2 as stated: `_gen_code` has no collision retry and
`battle_create` stores the new room unconditionally, so when the generated
code collides with a currently-live room's key (possible: the draw
`pick0` yields "AAAAAA"), create overwrites that room: after the call the
registry maps "AAAAAA" to the new creator's fresh room, and the old room
(creator 1, created at 5, not yet garbage-collectable) is gone. -/
theorem C2_counterexample :
    gen_code pick0 = "AAAAAA" ∧
    alGet [("AAAAAA", (⟨"AAAAAA", 1, "A", [(1, ⟨1, "A", 0, false⟩)],
        5, none, none, [], none, none⟩ : Room))] "AAAAAA" =
      some ⟨"AAAAAA", 1, "A", [(1, ⟨1, "A", 0, false⟩)], 5, none, none, [], none, none⟩ ∧
    alGet (battle_create 10 2 "B" "AAAAAA"
        [("AAAAAA", ⟨"AAAAAA", 1, "A", [(1, ⟨1, "A", 0, false⟩)],
          5, none, none, [], none, none⟩)]).2 "AAAAAA" =
      some ⟨"AAAAAA", 2, "B", [(2, ⟨2, "B", 0, false⟩)], 10, none, none, [], none, none⟩ := by
  refine ⟨by decide, by decide, by decide⟩

/-- C2 (amended): the code returned by `_gen_code` is exactly 6 characters,
each drawn from the alphabet `ABCDEFGHJKLMNPQRSTUVWXYZ23456789`; but there
is no collision retry: `battle_create` stores the fresh one-player room
under the drawn code unconditionally (after garbage collection), replacing
any existing room stored under that code. -/
theorem C2_code_shape (pick : Fin 6 → Fin 32) (now uid : Nat) (uname code : String)
    (reg : Reg) :
    (gen_code pick).length = 6 ∧
    (∀ c, c ∈ (gen_code pick).data → c ∈ code_alphabet.data) ∧
    (battle_create now uid uname code reg).2 =
      alSet (cleanup_rooms now reg) code
        ⟨code, uid, uname, [(uid, ⟨uid, uname, 0, false⟩)], now, none, none, [], none, none⟩ ∧
    alGet (battle_create now uid uname code reg).2 code =
      some ⟨code, uid, uname, [(uid, ⟨uid, uname, 0, false⟩)], now, none, none, [], none, none⟩ := by
  refine ⟨?_, ?_, rfl, alGet_alSet_self _ _ _⟩
  · show ((List.finRange 6).map (fun i => code_alphabet.data.getD (pick i).val 'A')).length = 6
    rw [List.length_map, List.length_finRange]
  · intro c hc
    simp only [gen_code, List.mem_map] at hc
    obtain ⟨i, _, hi⟩ := hc
    rw [← hi]
    exact code_alphabet_getD_mem (pick i)

/-- Witness for C2 (amended): the concrete draw `pick0` yields a 6-character
alphabet code, and a concrete create stores the fresh room under the given
code. -/
theorem C2_code_shape_witness :
    (gen_code pick0).length = 6 ∧
    'A' ∈ code_alphabet.data ∧
    alGet (battle_create 3 1 "A" "MMMMMM" []).2 "MMMMMM" =
      some ⟨"MMMMMM", 1, "A", [(1, ⟨1, "A", 0, false⟩)], 3, none, none, [], none, none⟩ := by
  have h := C2_code_shape pick0 3 1 "A" "MMMMMM" []
  exact ⟨h.1, h.2.1 'A' (by decide), h.2.2.2⟩

/-- Counterexample to C1 as stated: in an Active room with the three players
1, 2, 3 and no prior surrenders, player 1 surrenders; two players (2 and 3)
remain un-surrendered, yet the room does NOT stay Active: it is immediately
Finished with `surrender_result = "surrender"` and `winner_id = 2` (the
first non-surrendered player in insertion order). -/
theorem C1_counterexample :
    alGet (battle_surrender 10 1 "BBBBBB"
        [("BBBBBB", ⟨"BBBBBB", 1, "A",
          [(1, ⟨1, "A", 0, false⟩), (2, ⟨2, "B", 0, false⟩), (3, ⟨3, "C", 0, false⟩)],
          0, some 0, none, [], none, none⟩)]).2 "BBBBBB" =
      some ⟨"BBBBBB", 1, "A",
        [(1, ⟨1, "A", 0, false⟩), (2, ⟨2, "B", 0, false⟩), (3, ⟨3, "C", 0, false⟩)],
        0, some 0, some 10, [1], some "surrender", some 2⟩ := by
  decide

/-- C1 (amended): in a live Active room, after recording a participant's
surrender, if not every player has surrendered then the room immediately
becomes Finished with `surrender_result = "surrender"` and `winner_id` =
the first player in insertion order not in the surrendered list (whose id
must be nonzero, mirroring the `if winner_id:` truthiness test) — even when
more than one non-surrendered player remains; in particular, when exactly
one non-surrendered player remains, that player wins. -/
theorem C1_surrender_amended (now s uid w : Nat) (code : String) (reg : Reg)
    (room : Room) (S : List Nat) (pw : Player)
    (hreg : alGet reg code = some room)
    (hs : room.started_at = some s)
    (hfin : room.finished_at = none)
    (hlive : now < s + 60)
    (hpart : ∃ p ∈ sortByCountDesc (room.players.map Prod.snd), p.user_id = uid)
    (hS : S = if uid ∈ room.surrendered then room.surrendered
              else room.surrendered ++ [uid])
    (hnotall : ¬ room.players.length ≤ S.length)
    (hwin : room.players.find? (fun e => decide (e.1 ∉ S)) = some (w, pw))
    (hw0 : w ≠ 0) :
    battle_surrender now uid code reg =
      (.ok (room_state now { room with surrendered := S, finished_at := some now, surrender_result := some "surrender", winner_id := some w }).1,
        alSet reg code { room with surrendered := S, finished_at := some now, surrender_result := some "surrender", winner_id := some w }) ∧
    (room_state now { room with surrendered := S, finished_at := some now, surrender_result := some "surrender", winner_id := some w }).1.finished = true ∧
    (room_state now { room with surrendered := S, finished_at := some now, surrender_result := some "surrender", winner_id := some w }).1.winner_id = some w ∧
    (room_state now { room with surrendered := S, finished_at := some now, surrender_result := some "surrender", winner_id := some w }).1.surrender_result = some "surrender" ∧
    (room_state now { room with surrendered := S, finished_at := some now, surrender_result := some "surrender", winner_id := some w }).1.surrendered = S := by
  have hlive' : now < s + BATTLE_DURATION := by simpa [BATTLE_DURATION] using hlive
  have h1 : (room_state now room).2 = room := room_state_snd_of_live hs hlive'
  have h3 : (room_state now { room with surrendered := S, finished_at := some now, surrender_result := some "surrender", winner_id := some w }).2 = { room with surrendered := S, finished_at := some now, surrender_result := some "surrender", winner_id := some w } :=
    room_state_snd_of_finished rfl
  have h3' : (room_state now { room with surrendered := S, finished_at := some now, surrender_result := some "surrender", winner_id := some w, started_at := some s }).2 = { room with surrendered := S, finished_at := some now, surrender_result := some "surrender", winner_id := some w, started_at := some s } :=
    room_state_snd_of_finished rfl
  have hwin' : List.find? (fun e => !decide (e.1 ∈ S)) room.players = some (w, pw) := by
    simpa using hwin
  refine ⟨?_, ?_, ?_, ?_, ?_⟩
  · unfold battle_surrender
    simp only [hreg]
    simp only [room_state_fst, h1]
    rw [← hS]
    simp [hs, hfin, hpart, hnotall, hwin', hw0, h3, h3']
  · rw [room_state_fst]
    simp [h3]
  · rw [room_state_fst]
  · rw [room_state_fst]
  · rw [room_state_fst]

/-- Witness for C1 (amended): the concrete three-player surrender; player 1
surrenders at time 10, the room finishes at once with winner 2 although
players 2 and 3 both remain un-surrendered. -/
theorem C1_surrender_amended_witness :
    battle_surrender 10 1 "BBBBBB"
        [("BBBBBB", ⟨"BBBBBB", 1, "A",
          [(1, ⟨1, "A", 0, false⟩), (2, ⟨2, "B", 0, false⟩), (3, ⟨3, "C", 0, false⟩)],
          0, some 0, none, [], none, none⟩)] =
      (.ok (room_state 10 (⟨"BBBBBB", 1, "A",
          [(1, ⟨1, "A", 0, false⟩), (2, ⟨2, "B", 0, false⟩), (3, ⟨3, "C", 0, false⟩)],
          0, some 0, some 10, [1], some "surrender", some 2⟩ : Room)).1,
        alSet [("BBBBBB", ⟨"BBBBBB", 1, "A",
            [(1, ⟨1, "A", 0, false⟩), (2, ⟨2, "B", 0, false⟩), (3, ⟨3, "C", 0, false⟩)],
            0, some 0, none, [], none, none⟩)] "BBBBBB"
          (⟨"BBBBBB", 1, "A",
            [(1, ⟨1, "A", 0, false⟩), (2, ⟨2, "B", 0, false⟩), (3, ⟨3, "C", 0, false⟩)],
            0, some 0, some 10, [1], some "surrender", some 2⟩ : Room)) ∧
    (room_state 10 (⟨"BBBBBB", 1, "A",
        [(1, ⟨1, "A", 0, false⟩), (2, ⟨2, "B", 0, false⟩), (3, ⟨3, "C", 0, false⟩)],
        0, some 0, some 10, [1], some "surrender", some 2⟩ : Room)).1.finished = true ∧
    (room_state 10 (⟨"BBBBBB", 1, "A",
        [(1, ⟨1, "A", 0, false⟩), (2, ⟨2, "B", 0, false⟩), (3, ⟨3, "C", 0, false⟩)],
        0, some 0, some 10, [1], some "surrender", some 2⟩ : Room)).1.winner_id = some 2 := by
  have h := C1_surrender_amended 10 0 1 2 "BBBBBB"
    [("BBBBBB", ⟨"BBBBBB", 1, "A",
      [(1, ⟨1, "A", 0, false⟩), (2, ⟨2, "B", 0, false⟩), (3, ⟨3, "C", 0, false⟩)],
      0, some 0, none, [], none, none⟩)]
    ⟨"BBBBBB", 1, "A",
      [(1, ⟨1, "A", 0, false⟩), (2, ⟨2, "B", 0, false⟩), (3, ⟨3, "C", 0, false⟩)],
      0, some 0, none, [], none, none⟩
    [1] ⟨2, "B", 0, false⟩
    (by decide) rfl rfl (by decide) (by decide) (by decide) (by decide) (by decide)
    (by decide)
  exact ⟨h.1, h.2.1, h.2.2.1⟩

/-- Counterexample to C3 as stated: a room finished at time 100 receives a tap
at time 200; the stored `finished_at` is reassigned from `some 100` to
`some 200`, so `finished_at` is not set exactly once. -/
theorem C3_counterexample :
    alGet (battle_tap 200 1 "A" "CCCCCC"
        [("CCCCCC", ⟨"CCCCCC", 1, "A",
          [(1, ⟨1, "A", 5, false⟩), (2, ⟨2, "B", 3, false⟩)],
          0, some 0, some 100, [], none, none⟩)]).2 "CCCCCC" =
      some ⟨"CCCCCC", 1, "A", [(1, ⟨1, "A", 5, false⟩), (2, ⟨2, "B", 3, false⟩)],
        0, some 0, some 200, [], none, none⟩ := by
  decide

/-- C3 (amended): once a room has a `finished_at` timestamp, state reads and
the join / ready / start / state / surrender / leave operations never
reassign it — but a tap on an already-finished started room does reassign
`finished_at` to the tap's current time (while failing with `alreadyOver`). -/
theorem C3_finished_at_amended (now uid : Nat) (uname code : String) (reg : Reg)
    (room : Room) (f : Nat)
    (hreg : alGet reg code = some room)
    (hf : room.finished_at = some f) :
    ((room_state now room).2).finished_at = some f ∧
    (battle_join now uid uname code reg).2 = reg ∧
    (∀ rdy, (battle_ready now uid rdy code reg).2 = reg) ∧
    (battle_start now uid code reg).2 = reg ∧
    alGet (battle_state now code reg).2 code = some room ∧
    alGet (battle_surrender now uid code reg).2 code = some room ∧
    (∀ room', alGet (battle_leave now uid code reg).2 code = some room' →
      room'.finished_at = some f) ∧
    (∀ s, room.started_at = some s →
      (battle_tap now uid uname code reg).1 = .error .alreadyOver ∧
      alGet (battle_tap now uid uname code reg).2 code =
        some { room with finished_at := some now }) := by
  have h1 : (room_state now room).2 = room := room_state_snd_of_finished hf
  refine ⟨room_state_finished_at now room hf, ?_, ?_, ?_, ?_, ?_, ?_, ?_⟩
  · unfold battle_join
    simp [hreg, hf]
  · intro rdy
    unfold battle_ready
    simp [hreg, hf]
  · unfold battle_start
    by_cases hcr : room.creator_id ≠ uid <;> simp [hreg, hcr, hf]
  · unfold battle_state
    simp [hreg, h1, alGet_alSet_self]
  · unfold battle_surrender
    simp only [hreg]
    cases hst : room.started_at <;>
      simp [room_state_fst, h1, hst, hf, alGet_alSet_self]
  · intro room' h'
    by_cases hm : uid ∉ alKeys room.players
    · unfold battle_leave at h'
      simp only [hreg] at h'
      rw [if_pos hm] at h'
      rw [hreg] at h'
      cases h'
      exact hf
    · rw [not_not] at hm
      rcases hdl : alDel room.players uid with _ | ⟨⟨k, p⟩, rest⟩
      · unfold battle_leave at h'
        by_cases hcr : room.creator_id = uid <;>
          simp [hreg, hm, hdl, hcr, alGet_alDel_self] at h'
      · by_cases hcr : room.creator_id = uid
        · unfold battle_leave at h'
          simp [hreg, hm, hdl, hcr, alGet_alSet_self] at h'
          rw [← h']
          exact room_state_finished_at now
            { room with players := (k, p) :: rest, creator_id := k, creator_name := p.username } hf
        · unfold battle_leave at h'
          simp [hreg, hm, hdl, hcr, alGet_alSet_self] at h'
          rw [← h']
          exact room_state_finished_at now { room with players := (k, p) :: rest } hf
  · intro s hst
    refine ⟨tap_on_finished hreg hst hf, ?_⟩
    unfold battle_tap
    simp only [hreg]
    simp [room_state_fst, h1, hst, hf, alGet_alSet_self]

/-- Witness for C3 (amended) at a concrete finished room: a state read keeps
`finished_at = some 100`, while a tap at time 200 reassigns it to 200. -/
theorem C3_finished_at_amended_witness :
    ((room_state 150 (⟨"CCCCCC", 1, "A",
        [(1, ⟨1, "A", 5, false⟩), (2, ⟨2, "B", 3, false⟩)],
        0, some 0, some 100, [], none, none⟩ : Room)).2).finished_at = some 100 ∧
    (battle_tap 150 1 "A" "CCCCCC"
        [("CCCCCC", ⟨"CCCCCC", 1, "A",
          [(1, ⟨1, "A", 5, false⟩), (2, ⟨2, "B", 3, false⟩)],
          0, some 0, some 100, [], none, none⟩)]).1 = .error .alreadyOver ∧
    alGet (battle_tap 150 1 "A" "CCCCCC"
        [("CCCCCC", ⟨"CCCCCC", 1, "A",
          [(1, ⟨1, "A", 5, false⟩), (2, ⟨2, "B", 3, false⟩)],
          0, some 0, some 100, [], none, none⟩)]).2 "CCCCCC" =
      some { (⟨"CCCCCC", 1, "A", [(1, ⟨1, "A", 5, false⟩), (2, ⟨2, "B", 3, false⟩)],
        0, some 0, some 100, [], none, none⟩ : Room) with finished_at := some 150 } := by
  have h := C3_finished_at_amended 150 1 "A" "CCCCCC"
    [("CCCCCC", ⟨"CCCCCC", 1, "A",
      [(1, ⟨1, "A", 5, false⟩), (2, ⟨2, "B", 3, false⟩)],
      0, some 0, some 100, [], none, none⟩)]
    ⟨"CCCCCC", 1, "A", [(1, ⟨1, "A", 5, false⟩), (2, ⟨2, "B", 3, false⟩)],
      0, some 0, some 100, [], none, none⟩ 100 (by decide) rfl
  exact ⟨h.1, (h.2.2.2.2.2.2.2 0 rfl).1, (h.2.2.2.2.2.2.2 0 rfl).2⟩

/-- Witness for C8: the sole player leaves a concrete one-player room; the
result signals deletion and the code no longer resolves. -/
theorem C8_players_nonempty_witness :
    battle_leave 5 1 "KKKKKK"
        [("KKKKKK", ⟨"KKKKKK", 1, "A", [(1, ⟨1, "A", 0, false⟩)],
          0, none, none, [], none, none⟩)] =
      (.deleted, alDel [("KKKKKK", (⟨"KKKKKK", 1, "A", [(1, ⟨1, "A", 0, false⟩)],
        0, none, none, [], none, none⟩ : Room))] "KKKKKK") ∧
    alGet (alDel [("KKKKKK", (⟨"KKKKKK", 1, "A", [(1, ⟨1, "A", 0, false⟩)],
        0, none, none, [], none, none⟩ : Room))] "KKKKKK") "KKKKKK" = none := by
  have h := (C8_players_nonempty 5 1 "A" "KKKKKK" false
      [("KKKKKK", ⟨"KKKKKK", 1, "A", [(1, ⟨1, "A", 0, false⟩)],
        0, none, none, [], none, none⟩)]).2.2.2.2.2.2.2.2.2.1
  exact h ⟨"KKKKKK", 1, "A", [(1, ⟨1, "A", 0, false⟩)], 0, none, none, [], none, none⟩
    (by decide) (by decide) (by decide)

/-- Witness for C6: starting a concrete two-player Lobby room by its host at
time 7 stores `started_at = some 7`. -/
theorem C6_start_spec_witness :
    battle_start 7 1 "FFFFFF"
        [("FFFFFF", ⟨"FFFFFF", 1, "A",
          [(1, ⟨1, "A", 0, false⟩), (2, ⟨2, "B", 0, false⟩)], 0, none, none, [], none, none⟩)] =
      (.ok (room_state 7
          { (⟨"FFFFFF", 1, "A",
              [(1, ⟨1, "A", 0, false⟩), (2, ⟨2, "B", 0, false⟩)], 0, none, none, [], none, none⟩ : Room) with
            started_at := some 7, finished_at := none }).1,
        alSet [("FFFFFF", ⟨"FFFFFF", 1, "A",
            [(1, ⟨1, "A", 0, false⟩), (2, ⟨2, "B", 0, false⟩)], 0, none, none, [], none, none⟩)]
          "FFFFFF"
          { (⟨"FFFFFF", 1, "A",
              [(1, ⟨1, "A", 0, false⟩), (2, ⟨2, "B", 0, false⟩)], 0, none, none, [], none, none⟩ : Room) with
            started_at := some 7, finished_at := none }) ∧
    alGet (battle_start 7 1 "FFFFFF"
        [("FFFFFF", ⟨"FFFFFF", 1, "A",
          [(1, ⟨1, "A", 0, false⟩), (2, ⟨2, "B", 0, false⟩)], 0, none, none, [], none, none⟩)]).2
        "FFFFFF"
      = some { (⟨"FFFFFF", 1, "A",
          [(1, ⟨1, "A", 0, false⟩), (2, ⟨2, "B", 0, false⟩)], 0, none, none, [], none, none⟩ : Room) with
          started_at := some 7, finished_at := none } :=
  ((C6_start_spec 7 1 "FFFFFF"
      [("FFFFFF", ⟨"FFFFFF", 1, "A",
        [(1, ⟨1, "A", 0, false⟩), (2, ⟨2, "B", 0, false⟩)], 0, none, none, [], none, none⟩)]).2
    ⟨"FFFFFF", 1, "A", [(1, ⟨1, "A", 0, false⟩), (2, ⟨2, "B", 0, false⟩)],
      0, none, none, [], none, none⟩
    (by decide)).2.2.2.2 rfl rfl rfl (by decide)

end LuLeMe
